import Mathlib

/-!
Verification development for the `run_demo.py` stream-replay and fusion
pipeline: a shallow embedding of its dataset merger, temporal replay
engine, fusion scoring engine and event mapper, with theorems about the
behaviours the design document promises.

Timestamps are modelled as integers (seconds); Python floats are modelled
as exact rationals; Python dict fields that may be absent are `Option`s.
-/

namespace RunDemo

/-! ## Dataset merger (`parse_timestamp`, `collect_events`) -/

/-- The raw `timestamp` field of an input record, as JSON can present it:
absent, present but not a string, or a string together with the result
`datetime.fromisoformat` would give on it (`none` when unparsable). -/
inductive TsField where
  | absent : TsField
  | nonString : TsField
  | str (raw : String) (parsed : Option Int) : TsField
deriving DecidableEq

/-- A raw input record; only its timestamp field matters to the merger. -/
structure RawEvent where
  timestamp : TsField
deriving DecidableEq

/-- A record tagged with its dataset name and parsed timestamp, as built by
`collect_events` (`{"dataset": ..., "timestamp": ts, "payload": event}`). -/
structure TaggedEvent where
  dataset : String
  timestamp : Int
  payload : RawEvent
deriving DecidableEq

/-- Errors of the merger: a malformed (missing, non-string or unparsable)
timestamp, identified by dataset and offending raw field value, or an
empty merged result. -/
inductive MergeError where
  | malformedTimestamp (dataset : String) (raw : TsField) : MergeError
  | noEvents : MergeError
deriving DecidableEq

/-- `parse_timestamp`: a non-string value or a string `fromisoformat`
rejects raises `ValueError` naming the dataset and the raw value;
otherwise the parsed instant is returned. -/
def parse_timestamp (value : TsField) (dataset : String) : Except MergeError Int :=
  match value with
  | .absent => .error (.malformedTimestamp dataset .absent)
  | .nonString => .error (.malformedTimestamp dataset .nonString)
  | .str raw none => .error (.malformedTimestamp dataset (.str raw none))
  | .str _ (some t) => .ok t

/-- The raw timestamp field fails to parse (the condition under which
`parse_timestamp` raises). -/
def badTs (value : TsField) : Prop :=
  match value with
  | .str _ (some _) => False
  | _ => True

instance (value : TsField) : Decidable (badTs value) := by
  unfold badTs; split <;> infer_instance

/-- The inner loop of `collect_events` for one dataset: parse every
record's timestamp and tag the record, propagating the first error. -/
def tagEvents (dataset : String) : List RawEvent → Except MergeError (List TaggedEvent)
  | [] => .ok []
  | e :: rest => do
    let t ← parse_timestamp e.timestamp dataset
    let more ← tagEvents dataset rest
    pure ({ dataset := dataset, timestamp := t, payload := e } :: more)

/-- The full accumulation loop of `collect_events` over all datasets,
before sorting. -/
def collectAll : List (String × List RawEvent) → Except MergeError (List TaggedEvent)
  | [] => .ok []
  | (dataset, events) :: rest => do
    let tagged ← tagEvents dataset events
    let more ← collectAll rest
    pure (tagged ++ more)

/-- The sort key comparison `key=lambda item: item["timestamp"]` used by
`all_events.sort`. -/
def tsLE (a b : TaggedEvent) : Bool :=
  decide (a.timestamp ≤ b.timestamp)

/-- `all_events.sort(key=lambda item: item["timestamp"])`: Python's stable
sort by timestamp, embedded as a stable merge sort. -/
def sortByTs (events : List TaggedEvent) : List TaggedEvent :=
  events.mergeSort tsLE

/-- `collect_events`: parse and tag every record of every dataset, fail on
the first malformed timestamp, fail with `noEvents` when nothing was
collected, otherwise return the stable-sorted merged sequence. -/
def collect_events (datasets : List (String × List RawEvent)) :
    Except MergeError (List TaggedEvent) := do
  let all ← collectAll datasets
  if all.isEmpty then .error .noEvents else pure (sortByTs all)

/-! ## Cycle span (`start_server`) -/

/-- The consecutive timestamp gaps of the merged sequence
(`events[i+1]["timestamp"] - events[i]["timestamp"]`). -/
def tsGaps : List Int → List Int
  | [] => []
  | [_] => []
  | a :: b :: rest => (b - a) :: tsGaps (b :: rest)

/-- The `min_gap` scan of `start_server`: the minimum of the strictly
positive gaps, `none` when no gap is positive. -/
def minPosGap : List Int → Option Int
  | [] => none
  | g :: rest =>
    if 0 < g then
      match minPosGap rest with
      | some x => some (min g x)
      | none => some g
    else minPosGap rest

/-- `cycle_span`: `(last - first) + min_gap` with `min_gap` defaulting to
one second, the whole span clamped to one second when non-positive. -/
def cycleSpan (events : List TaggedEvent) : Int :=
  let ts := events.map (fun e => e.timestamp)
  let first := ts.head?.getD 0
  let last := ts.getLast?.getD 0
  let minGap := (minPosGap (tsGaps ts)).getD 1
  let span := (last - first) + minGap
  if span ≤ 0 then 1 else span

/-! ## Temporal replay engine (`EventStreamRequestHandler.handle`) -/

/-- A frame emitted on the wire: dataset tag, per-connection sequence
number and cycle-adjusted timestamp. -/
structure Frame where
  dataset : String
  sequence : Nat
  timestamp : Int
deriving DecidableEq

/-- One replay cycle of the handler loop: each record is emitted with
timestamp `record["timestamp"] + cycle_span * loop_index` and the running
sequence counter, incremented after each send. -/
def emitCycle (span : Int) (loopIndex : Nat) (seq : Nat) :
    List TaggedEvent → List Frame
  | [] => []
  | e :: rest =>
    { dataset := e.dataset, sequence := seq,
      timestamp := e.timestamp + span * loopIndex } :: emitCycle span loopIndex (seq + 1) rest

/-- The handler's outer loop run for a given number of cycles: the loop
index advances by one per cycle while the sequence counter keeps running
across cycle boundaries. -/
def runCycles (events : List TaggedEvent) (span : Int) (loopIndex : Nat) (seq : Nat) :
    Nat → List Frame
  | 0 => []
  | c + 1 =>
    emitCycle span loopIndex seq events ++
      runCycles events span (loopIndex + 1) (seq + events.length) c

/-- All frames a connection receives over its first `c` cycles: loop index
starts at 0 and the sequence counter starts at 1. -/
def handleFrames (events : List TaggedEvent) (span : Int) (c : Nat) : List Frame :=
  runCycles events span 0 1 c

/-! ## Fusion engine (`FusionEngine`) -/

/-- A POS transaction record as the fusion engine sees it: optional SKU,
customer, observed weight in grams, and the expected weight
`push_pos` may attach. Numeric fields are exact rationals. -/
structure PosRecord where
  sku : Option String := none
  customer_id : Option String := none
  weight_g : Option ℚ := none
  expected_weight : Option ℚ := none
deriving DecidableEq

/-- An RFID record: optional SKU, tag EPC and location string. -/
structure RfidRecord where
  sku : Option String := none
  epc : Option String := none
  location : Option String := none
deriving DecidableEq

/-- A vision (product recognition) record: optional predicted product and
accuracy. -/
structure VisionRecord where
  predicted_product : Option String := none
  accuracy : Option ℚ := none
deriving DecidableEq

/-- A queue telemetry snapshot; the empty dict has both fields absent. -/
structure QueueSnapshot where
  customer_count : Option Int := none
  average_dwell_time : Option ℚ := none
deriving DecidableEq

/-- The reasons `compute` records. Each constructor stands for one of the
source's formatted reason strings and carries exactly the values
interpolated into it:
`visionNotInPos p a` for `"Vision {p}@{a:.2f} not in POS"`,
`rfidInBag` for `"RFID in scan/bag area for vision SKU"`,
`visionNePos p s` for `"Vision {p} ≠ POS {s}"`,
`weightDelta o e` for `"Weight delta {o-e:.0f}g (obs={o}, exp={e})"`,
`queuePressure` for `"High queue pressure"`. -/
inductive Reason where
  | visionNotInPos (product : String) (accuracy : ℚ) : Reason
  | rfidInBag : Reason
  | visionNePos (product : String) (sku : String) : Reason
  | weightDelta (observed : ℚ) (expected : ℚ) : Reason
  | queuePressure : Reason
deriving DecidableEq

/-- The per-station state: ring buffers for POS, RFID and vision records,
the latest queue snapshot, and the last computed score and reasons. -/
structure StationState where
  pos : List PosRecord := []
  rfid : List RfidRecord := []
  vision : List VisionRecord := []
  queue : QueueSnapshot := {}
  score : ℚ := 0
  reasons : List Reason := []
deriving DecidableEq

/-- The state `FusionEngine._get` creates for a station on first touch. -/
def emptyStation : StationState := {}

/-- A Python string is truthy iff non-empty; an absent field is falsy. -/
def truthyStr (s : Option String) : Bool :=
  match s with
  | some v => v ≠ ""
  | none => false

/-- The fusion engine: configured vision-confidence threshold and weight
tolerance, the product weight table, and the per-station state dict
(modelled as an insertion-ordered association list). -/
structure FusionEngine where
  vision_conf : ℚ := 0.85
  weight_tol_pct : ℚ := 0.07
  weights : String → Option ℚ
  state : List (String × StationState) := []

/-- Dict lookup on the per-station state. -/
def lookupSt (l : List (String × StationState)) (st : String) : Option StationState :=
  match l with
  | [] => none
  | (k, v) :: rest => if k = st then some v else lookupSt rest st

/-- Dict update on the per-station state: replace in place when present,
append when absent (Python dict insertion order). -/
def setSt (l : List (String × StationState)) (st : String) (v : StationState) :
    List (String × StationState) :=
  match l with
  | [] => [(st, v)]
  | (k, w) :: rest => if k = st then (k, v) :: rest else (k, w) :: setSt rest st v

/-- The station state `FusionEngine._get` returns: the stored state, or a
fresh empty one for an unseen station. -/
def FusionEngine.station (e : FusionEngine) (st : String) : StationState :=
  (lookupSt e.state st).getD emptyStation

/-- Store an updated station state back into the engine. -/
def FusionEngine.setStation (e : FusionEngine) (st : String) (s : StationState) :
    FusionEngine :=
  { e with state := setSt e.state st s }

/-- Ring-buffer push: append, then evict the oldest entry beyond the
capacity (`if len(buf) > cap: buf.pop(0)`). -/
def ringPush {α : Type} (cap : Nat) (buf : List α) (x : α) : List α :=
  let buf := buf ++ [x]
  if cap < buf.length then buf.drop 1 else buf

/-- `push_pos`: append the record to the POS ring buffer (capacity 10); if
the record carries a truthy SKU with a weight-table entry, attach that
entry as the record's expected weight (overwriting any incoming value). -/
def FusionEngine.push_pos (e : FusionEngine) (st : String) (data : PosRecord) :
    FusionEngine :=
  let data :=
    if truthyStr data.sku then
      match data.sku with
      | some k =>
        match e.weights k with
        | some exp => { data with expected_weight := some exp }
        | none => data
      | none => data
    else data
  let s := e.station st
  e.setStation st { s with pos := ringPush 10 s.pos data }

/-- `push_rfid`: drop a record with no truthy SKU, EPC or location;
otherwise append to the RFID ring buffer (capacity 20). -/
def FusionEngine.push_rfid (e : FusionEngine) (st : String) (data : RfidRecord) :
    FusionEngine :=
  if truthyStr data.sku || truthyStr data.epc || truthyStr data.location then
    let s := e.station st
    e.setStation st { s with rfid := ringPush 20 s.rfid data }
  else e

/-- `push_vision`: drop a record with no truthy predicted product;
otherwise append to the vision ring buffer (capacity 10). -/
def FusionEngine.push_vision (e : FusionEngine) (st : String) (data : VisionRecord) :
    FusionEngine :=
  if truthyStr data.predicted_product then
    let s := e.station st
    e.setStation st { s with vision := ringPush 10 s.vision data }
  else e

/-- `set_queue`: replace the station's queue snapshot unconditionally
(a null payload becomes the empty snapshot at the call site). -/
def FusionEngine.set_queue (e : FusionEngine) (st : String) (q : QueueSnapshot) :
    FusionEngine :=
  let s := e.station st
  e.setStation st { s with queue := q }

/-- `v.get("accuracy", 0.0)` as a rational. -/
def visionAcc (v : VisionRecord) : ℚ :=
  v.accuracy.getD 0

/-- The RFID bagging-area test of rule 1:
`str(r.get("location","")).upper().startswith("IN")`. -/
def rfidInsideBag (r : RfidRecord) : Bool :=
  ((r.location.getD "").toUpper).startsWith "IN"

/-- Scoring rule 1, scan avoidance: the latest vision observation has a
truthy predicted product with accuracy at or above the threshold, and no
POS buffer record has that product as its SKU: score 0.40 plus a reason;
an RFID record for the product located inside the bag area adds 0.20 and
a second reason. -/
def scanAvoidRule (conf : ℚ) (s : StationState) : ℚ × List Reason :=
  match s.vision.getLast? with
  | none => (0, [])
  | some v =>
    match v.predicted_product with
    | none => (0, [])
    | some pr =>
      if pr = "" then (0, [])
      else if conf ≤ visionAcc v then
        if s.pos.any (fun x => x.sku == some pr) then (0, [])
        else
          if s.rfid.any (fun r => (r.sku == some pr) && rfidInsideBag r) then
            (0.40 + 0.20, [.visionNotInPos pr (visionAcc v), .rfidInBag])
          else
            (0.40, [.visionNotInPos pr (visionAcc v)])
      else (0, [])

/-- Scoring rule 2, barcode switching: latest vision prediction and latest
POS SKU both truthy and different: score 0.30 plus a reason. -/
def barcodeRule (s : StationState) : ℚ × List Reason :=
  match s.vision.getLast?, s.pos.getLast? with
  | some v, some p =>
    match v.predicted_product, p.sku with
    | some pr, some sk =>
      if pr ≠ "" ∧ sk ≠ "" ∧ pr ≠ sk then (0.30, [.visionNePos pr sk]) else (0, [])
    | _, _ => (0, [])
  | _, _ => (0, [])

/-- The expected-weight chain of rule 3:
`float(p.get("expected_weight") or self.weights.get(p["sku"]) or observed)`.
A falsy (absent or zero) attached weight falls through to the table; a
falsy table value falls through to the observed weight; a record without a
`sku` key raises `KeyError` on the table lookup (`none` here), which the
enclosing `try` swallows. -/
def expectedWeight (weights : String → Option ℚ) (p : PosRecord) (observed : ℚ) :
    Option ℚ :=
  let attached :=
    match p.expected_weight with
    | some e => if e = 0 then none else some e
    | none => none
  match attached with
  | some e => some e
  | none =>
    match p.sku with
    | none => none
    | some k =>
      match weights k with
      | some w => if w = 0 then some observed else some w
      | none => some observed

/-- Scoring rule 3, weight discrepancy: the latest POS record carries an
observed weight; the expected weight comes from `expectedWeight`; when the
absolute delta exceeds the tolerance fraction of the expected weight,
score 0.25 plus a reason. Any exception in the chain contributes
nothing. -/
def weightRule (weights : String → Option ℚ) (tolPct : ℚ) (p? : Option PosRecord) :
    ℚ × List Reason :=
  match p? with
  | none => (0, [])
  | some p =>
    match p.weight_g with
    | none => (0, [])
    | some observed =>
      match expectedWeight weights p observed with
      | none => (0, [])
      | some expected =>
        if tolPct * expected < |observed - expected| then
          (0.25, [.weightDelta observed expected])
        else (0, [])

/-- Scoring rule 4, queue pressure: customer count at least 6 or average
dwell time at least 120 seconds: score 0.05 plus a reason. -/
def queueRule (q : QueueSnapshot) : ℚ × List Reason :=
  if 6 ≤ q.customer_count.getD 0 ∨ 120 ≤ q.average_dwell_time.getD 0 then
    (0.05, [.queuePressure])
  else (0, [])

/-- `compute`: run the four scoring rules against the station's state,
sum their scores, clamp to [0, 1], concatenate their reasons in rule
order, store score and reasons back into the station state and return
them. -/
def FusionEngine.compute (e : FusionEngine) (st : String) :
    (ℚ × List Reason) × FusionEngine :=
  let s := e.station st
  let r1 := scanAvoidRule e.vision_conf s
  let r2 := barcodeRule s
  let r3 := weightRule e.weights e.weight_tol_pct s.pos.getLast?
  let r4 := queueRule s.queue
  let total := r1.1 + r2.1 + r3.1 + r4.1
  let score := max 0 (min 1 total)
  let reasons := r1.2 ++ r2.2 ++ r3.2 ++ r4.2
  ((score, reasons), e.setStation st { s with score := score, reasons := reasons })

/-! ## Event mapper (`Mapper.from_queue`) -/

/-- The business events the queue-inspection operation can emit, with the
fields the source writes for each. -/
inductive BizEvent where
  | longQueueLength (station : String) (numOfCustomers : Int) : BizEvent
  | staffingNeeds (station : String) (staffType : String) : BizEvent
  | checkoutStationAction (station : String) (action : String) : BizEvent
  | longWaitTime (station : String) (waitSeconds : ℚ) : BizEvent
deriving DecidableEq

/-- The snapshot is the empty dict (falsy), on which `from_queue` returns
immediately. -/
def QueueSnapshot.isEmptyDict (q : QueueSnapshot) : Bool :=
  q.customer_count == none && q.average_dwell_time == none

/-- `Mapper.from_queue`: on a truthy snapshot, a customer count of at
least 6 emits the fixed triple Long Queue Length, Staffing Needs
(Cashier), Checkout Station Action (Open); an average dwell time of at
least 120 independently emits Long Wait Time. -/
def from_queue (station : String) (q : QueueSnapshot) : List BizEvent :=
  if q.isEmptyDict then []
  else
    let cc := q.customer_count.getD 0
    let dt := q.average_dwell_time.getD 0
    (if 6 ≤ cc then
      [.longQueueLength station cc, .staffingNeeds station "Cashier",
       .checkoutStationAction station "Open"]
    else []) ++
    (if 120 ≤ dt then [.longWaitTime station dt] else [])

/-! ## Concrete example inputs -/

/-- An engine whose only station has seen one vision observation,
`PRD_X_1` at accuracy 0.90, and nothing else. -/
def exVisionEngine : FusionEngine :=
  { weights := fun _ => none,
    state := [("SCC1",
      { vision := [{ predicted_product := some "PRD_X_1", accuracy := some 0.90 }] })] }

/-- An engine with an empty weight table whose only station holds a single
POS record for an unknown SKU with a negative observed weight. -/
def exUnknownSkuEngine : FusionEngine :=
  { weights := fun _ => none,
    state := [("SCC1",
      { pos := [{ sku := some "PRD_U", weight_g := some (-1) }] })] }

/-- A weight table whose only entry, `PRD_Z`, is zero grams. -/
def exZeroTable : String → Option ℚ :=
  fun k => if k = "PRD_Z" then some 0 else none

/-- An engine over `exZeroTable` after `push_pos` of a `PRD_Z` record with
a negative observed weight. -/
def exZeroSkuEngine : FusionEngine :=
  FusionEngine.push_pos { weights := exZeroTable } "SCC1"
    { sku := some "PRD_Z", weight_g := some (-1) }

/-- An engine with no station state at all. -/
def exFreshEngine : FusionEngine :=
  { weights := fun _ => none }

/-- Queue snapshot: six customers, short dwell. -/
def exQueueCount : QueueSnapshot :=
  { customer_count := some 6, average_dwell_time := some 90 }

/-- Queue snapshot: few customers, long dwell. -/
def exQueueDwell : QueueSnapshot :=
  { customer_count := some 3, average_dwell_time := some 150 }

/-- Queue snapshot: both thresholds reached. -/
def exQueueBoth : QueueSnapshot :=
  { customer_count := some 6, average_dwell_time := some 120 }

/-- Two datasets with a timestamp tie across sources. -/
def exDatasets : List (String × List RawEvent) :=
  [("POS_Transactions", [⟨.str "t5" (some 5)⟩, ⟨.str "t3" (some 3)⟩]),
   ("RFID_data", [⟨.str "t3b" (some 3)⟩])]

/-- The concatenated tagged records of `exDatasets`, in per-source order. -/
def exFlat : List TaggedEvent :=
  [⟨"POS_Transactions", 5, ⟨.str "t5" (some 5)⟩⟩,
   ⟨"POS_Transactions", 3, ⟨.str "t3" (some 3)⟩⟩,
   ⟨"RFID_data", 3, ⟨.str "t3b" (some 3)⟩⟩]

/-- A dataset collection containing one unparsable timestamp. -/
def exBadDatasets : List (String × List RawEvent) :=
  [("POS_Transactions", [⟨.str "ok" (some 1)⟩, ⟨.str "garbage" none⟩])]

/-- A sorted merged sequence with a duplicate timestamp. -/
def exSortedEvents : List TaggedEvent :=
  [⟨"A", 0, ⟨.str "a" (some 0)⟩⟩, ⟨"A", 5, ⟨.str "b" (some 5)⟩⟩,
   ⟨"B", 5, ⟨.str "c" (some 5)⟩⟩, ⟨"B", 7, ⟨.str "d" (some 7)⟩⟩]

/-- A merged sequence whose records all share one timestamp. -/
def exFlatEvents : List TaggedEvent :=
  [⟨"A", 3, ⟨.str "a" (some 3)⟩⟩, ⟨"B", 3, ⟨.str "b" (some 3)⟩⟩]

/-! ## Helper lemmas -/

theorem lookupSt_setSt_self (l : List (String × StationState)) (st : String)
    (v : StationState) : lookupSt (setSt l st v) st = some v := by
  induction l with
  | nil => simp [setSt, lookupSt]
  | cons hd tl ih =>
    obtain ⟨k, w⟩ := hd
    by_cases h : k = st <;> simp [setSt, lookupSt, h, ih]

theorem setSt_absent (l : List (String × StationState)) (st : String)
    (v : StationState) (h : lookupSt l st = none) : setSt l st v = l ++ [(st, v)] := by
  induction l with
  | nil => simp [setSt]
  | cons hd tl ih =>
    obtain ⟨k, w⟩ := hd
    by_cases hk : k = st
    · simp [lookupSt, hk] at h
    · simp only [lookupSt, if_neg hk] at h
      simp [setSt, hk, ih h]

theorem scanAvoidRule_nonneg (conf : ℚ) (s : StationState) :
    0 ≤ (scanAvoidRule conf s).1 := by
  unfold scanAvoidRule
  repeat' split
  all_goals norm_num

theorem barcodeRule_nonneg (s : StationState) : 0 ≤ (barcodeRule s).1 := by
  unfold barcodeRule
  repeat' split
  all_goals norm_num

theorem weightRule_nonneg (w : String → Option ℚ) (tol : ℚ) (p? : Option PosRecord) :
    0 ≤ (weightRule w tol p?).1 := by
  unfold weightRule
  repeat' split
  all_goals norm_num

theorem queueRule_nonneg (q : QueueSnapshot) : 0 ≤ (queueRule q).1 := by
  unfold queueRule
  repeat' split
  all_goals norm_num

theorem scanAvoidRule_empty (conf : ℚ) : scanAvoidRule conf emptyStation = (0, []) := rfl

theorem barcodeRule_empty : barcodeRule emptyStation = (0, []) := rfl

theorem weightRule_none (w : String → Option ℚ) (tol : ℚ) :
    weightRule w tol none = (0, []) := rfl

theorem queueRule_empty : queueRule emptyStation.queue = (0, []) := by
  norm_num [queueRule, emptyStation]

/-- The scoring rules ignore the stored score and reason fields, so
overwriting them does not change any rule's output. -/
theorem scanAvoidRule_set_score (conf : ℚ) (s : StationState) (a : ℚ) (b : List Reason) :
    scanAvoidRule conf { s with score := a, reasons := b } = scanAvoidRule conf s := rfl

theorem barcodeRule_set_score (s : StationState) (a : ℚ) (b : List Reason) :
    barcodeRule { s with score := a, reasons := b } = barcodeRule s := rfl

theorem queueRule_set_score (s : StationState) (a : ℚ) (b : List Reason) :
    queueRule ({ s with score := a, reasons := b } : StationState).queue =
      queueRule s.queue := rfl

/-- A score bounded by a rule contribution survives the final clamp. -/
theorem clamp_lower (c total : ℚ) (h1 : c ≤ total) (h2 : c ≤ 1) :
    c ≤ max 0 (min 1 total) :=
  le_max_of_le_right (le_min h2 h1)

/-- When the scan-avoidance premises hold, rule 1 yields 0.40 (plus 0.20
with a matching in-bag RFID record) and the corresponding reasons. -/
theorem scanAvoidRule_fires (conf : ℚ) (s : StationState) (v : VisionRecord) (pr : String)
    (hv : s.vision.getLast? = some v) (hpr : v.predicted_product = some pr)
    (hne : pr ≠ "") (hacc : conf ≤ visionAcc v)
    (hpos : ∀ x ∈ s.pos, x.sku ≠ some pr) :
    scanAvoidRule conf s =
      if s.rfid.any (fun r => (r.sku == some pr) && rfidInsideBag r) then
        (0.40 + 0.20, [.visionNotInPos pr (visionAcc v), .rfidInBag])
      else (0.40, [.visionNotInPos pr (visionAcc v)]) := by
  have hany : s.pos.any (fun x => x.sku == some pr) = false := by
    simp only [List.any_eq_false, beq_iff_eq]
    exact hpos
  unfold scanAvoidRule
  rw [hv]
  simp [hpr, hne, hacc, hany]

theorem list_getLast?_ringPush {α : Type} (cap : Nat) (buf : List α) (x : α)
    (hcap : 0 < cap) : (ringPush cap buf x).getLast? = some x := by
  simp only [ringPush]
  split
  · rename_i h
    cases buf with
    | nil => simp at h; omega
    | cons b bs => simp [List.getLast?_concat]
  · simp [List.getLast?_concat]

/-! ## Claim theorems -/

/-- C9: `computeScore` on a station with no prior ingestion never fails,
returns score 0.0 with an empty reason list, and lazily appends that
station's empty state to the engine's state dict. -/
theorem compute_fresh_station (e : FusionEngine) (st : String)
    (h : lookupSt e.state st = none) :
    (e.compute st).1 = (0, []) ∧
    (e.compute st).2.state = e.state ++ [(st, emptyStation)] := by
  have hstation : e.station st = emptyStation := by
    simp [FusionEngine.station, h]
  have hclamp : max (0 : ℚ) (min 1 (0 + 0 + 0 + 0)) = 0 := by norm_num
  have hlast : emptyStation.pos.getLast? = (none : Option PosRecord) := rfl
  constructor
  · simp only [FusionEngine.compute, hstation, hlast, scanAvoidRule_empty,
      barcodeRule_empty, weightRule_none, queueRule_empty, hclamp, List.append_nil]
  · simp only [FusionEngine.compute, FusionEngine.setStation, hstation, hlast,
      scanAvoidRule_empty, barcodeRule_empty, weightRule_none, queueRule_empty, hclamp,
      setSt_absent _ _ _ h, List.append_nil]
    rfl

/-- C9 witness: on an engine with no state at all, `compute` of station
`SCC1` returns score 0 with no reasons and creates the empty station. -/
theorem compute_fresh_station_witness :
    (exFreshEngine.compute "SCC1").1 = (0, []) ∧
    (exFreshEngine.compute "SCC1").2.state = exFreshEngine.state ++ [("SCC1", emptyStation)] :=
  compute_fresh_station exFreshEngine "SCC1" rfl

/-- C6: scoring is idempotent: calling `compute` twice for the same
station with no ingestion in between returns the identical
score/reasons pair both times. -/
theorem compute_idempotent (e : FusionEngine) (st : String) :
    ((e.compute st).2.compute st).1 = (e.compute st).1 := by
  simp only [FusionEngine.compute, FusionEngine.setStation, FusionEngine.station,
    lookupSt_setSt_self, Option.getD_some]
  rfl

/-- C1: when the station's latest vision observation predicts a product
with confidence at least the configured threshold and no POS buffer
record carries that product as its SKU, `compute` scores at least 0.40
and records the vision-not-in-POS reason; when additionally some RFID
buffer record carries that product with a location inside the bag/scan
area, it scores at least 0.60 and also records the in-bag reason. -/
theorem compute_scan_avoidance (e : FusionEngine) (st : String) (v : VisionRecord)
    (pr : String)
    (hv : (e.station st).vision.getLast? = some v)
    (hpr : v.predicted_product = some pr) (hne : pr ≠ "")
    (hacc : e.vision_conf ≤ visionAcc v)
    (hpos : ∀ x ∈ (e.station st).pos, x.sku ≠ some pr) :
    (Reason.visionNotInPos pr (visionAcc v) ∈ (e.compute st).1.2 ∧
      (0.40 : ℚ) ≤ (e.compute st).1.1) ∧
    ((∃ r ∈ (e.station st).rfid, r.sku = some pr ∧ rfidInsideBag r = true) →
      Reason.rfidInBag ∈ (e.compute st).1.2 ∧ (0.60 : ℚ) ≤ (e.compute st).1.1) := by
  have hr1 := scanAvoidRule_fires e.vision_conf (e.station st) v pr hv hpr hne hacc hpos
  have h2 := barcodeRule_nonneg (e.station st)
  have h3 := weightRule_nonneg e.weights e.weight_tol_pct (e.station st).pos.getLast?
  have h4 := queueRule_nonneg (e.station st).queue
  have hscore : (e.compute st).1.1 =
      max 0 (min 1 ((scanAvoidRule e.vision_conf (e.station st)).1 +
        (barcodeRule (e.station st)).1 +
        (weightRule e.weights e.weight_tol_pct (e.station st).pos.getLast?).1 +
        (queueRule (e.station st).queue).1)) := rfl
  have hreasons : (e.compute st).1.2 =
      (scanAvoidRule e.vision_conf (e.station st)).2 ++
        (barcodeRule (e.station st)).2 ++
        (weightRule e.weights e.weight_tol_pct (e.station st).pos.getLast?).2 ++
        (queueRule (e.station st).queue).2 := rfl
  cases hA : (e.station st).rfid.any (fun r => (r.sku == some pr) && rfidInsideBag r) with
  | false =>
    rw [hA] at hr1
    have hr1' : scanAvoidRule e.vision_conf (e.station st) =
        (0.40, [.visionNotInPos pr (visionAcc v)]) := by
      rw [hr1]; simp
    constructor
    · constructor
      · rw [hreasons, hr1']; simp
      · rw [hscore, hr1']
        exact clamp_lower _ _ (by push_cast; linarith) (by norm_num)
    · intro hex
      exfalso
      have hT : (e.station st).rfid.any (fun r => (r.sku == some pr) && rfidInsideBag r) = true := by
        simp only [List.any_eq_true, Bool.and_eq_true, beq_iff_eq]
        obtain ⟨r, hr, hx1, hx2⟩ := hex
        exact ⟨r, hr, hx1, hx2⟩
      rw [hA] at hT
      exact Bool.false_ne_true hT
  | true =>
    rw [hA] at hr1
    have hr1' : scanAvoidRule e.vision_conf (e.station st) =
        (0.40 + 0.20, [.visionNotInPos pr (visionAcc v), .rfidInBag]) := by
      rw [hr1]; simp
    refine ⟨⟨?_, ?_⟩, fun _ => ⟨?_, ?_⟩⟩
    · rw [hreasons, hr1']; simp
    · rw [hscore, hr1']
      exact clamp_lower _ _ (by push_cast; linarith) (by norm_num)
    · rw [hreasons, hr1']; simp
    · rw [hscore, hr1']
      exact clamp_lower _ _ (by push_cast; linarith) (by norm_num)

/-- C1 witness: with vision observation `PRD_X_1` at accuracy 0.90 and no
POS record, `compute` scores at least 0.40 and records the reason. -/
theorem compute_scan_avoidance_witness :
    Reason.visionNotInPos "PRD_X_1" 0.90 ∈ (exVisionEngine.compute "SCC1").1.2 ∧
    (0.40 : ℚ) ≤ (exVisionEngine.compute "SCC1").1.1 :=
  (compute_scan_avoidance exVisionEngine "SCC1"
    { predicted_product := some "PRD_X_1", accuracy := some 0.90 } "PRD_X_1"
    (by simp [exVisionEngine, FusionEngine.station, lookupSt])
    rfl
    (by simp)
    (by norm_num [exVisionEngine, visionAcc])
    (by simp [exVisionEngine, FusionEngine.station, lookupSt])).1

/-- C4 (amended): for a POS record carrying a nonnegative observed weight
whose SKU has no attached expected weight and no weight-table entry, and
a nonnegative tolerance fraction, the weight-discrepancy rule contributes
neither score nor reason: the expected weight falls back to the observed
weight itself. -/
theorem weightRule_unknown_sku (w : String → Option ℚ) (tol : ℚ) (p : PosRecord)
    (k : String) (obs : ℚ)
    (hsku : p.sku = some k) (hexp : p.expected_weight = none) (htab : w k = none)
    (hobs : p.weight_g = some obs) (hnn : 0 ≤ obs) (htol : 0 ≤ tol) :
    weightRule w tol (some p) = (0, []) := by
  unfold weightRule expectedWeight
  simp [hobs, hexp, hsku, htab]
  exact mul_nonneg htol hnn

/-- C4 counterexample: for the unknown SKU `PRD_U` with observed weight
-1 (no table entry, no attached expected weight), the expected weight
falls back to -1 and the tolerance becomes negative, so the rule fires
after all: `compute` returns score 0.25 with a weight-delta reason. -/
theorem weightRule_unknown_sku_cex :
    (exUnknownSkuEngine.compute "SCC1").1 = (0.25, [Reason.weightDelta (-1) (-1)]) ∧
    ((0.25 : ℚ) ≠ 0 ∧ [Reason.weightDelta (-1) (-1)] ≠ []) := by
  refine ⟨?_, by norm_num⟩
  simp [FusionEngine.compute, exUnknownSkuEngine, FusionEngine.station, lookupSt,
    emptyStation, scanAvoidRule, barcodeRule, weightRule, queueRule, expectedWeight]
  norm_num

/-- C4 witness: a POS record for unknown SKU `PRD_U` with observed weight
500 g and the default 7% tolerance contributes nothing. -/
theorem weightRule_unknown_sku_witness :
    weightRule (fun _ => none) 0.07
      (some { sku := some "PRD_U", weight_g := some 500 }) = (0, []) :=
  weightRule_unknown_sku (fun _ => none) 0.07
    { sku := some "PRD_U", weight_g := some 500 } "PRD_U" 500
    rfl rfl rfl rfl (by norm_num) (by norm_num)

/-- C10 (amended): for a SKU whose weight-table entry is 0 grams, a POS
record pushed through `push_pos` (which attaches the zero expected
weight) with a nonnegative observed weight can never fire the
weight-discrepancy rule: the lookup chain treats 0.0 as absent and falls
back to the observed weight, making the delta zero. -/
theorem push_pos_zero_weight_entry (e : FusionEngine) (st : String) (data : PosRecord)
    (k : String) (obs : ℚ)
    (hsku : data.sku = some k) (hk : k ≠ "") (htab : e.weights k = some 0)
    (hobs : data.weight_g = some obs) (hnn : 0 ≤ obs) (htol : 0 ≤ e.weight_tol_pct) :
    weightRule e.weights e.weight_tol_pct
      (((e.push_pos st data).station st).pos.getLast?) = (0, []) := by
  have hlast : ((e.push_pos st data).station st).pos.getLast? =
      some { data with expected_weight := some 0 } := by
    have hpush : ((e.push_pos st data).station st).pos =
        ringPush 10 (e.station st).pos { data with expected_weight := some 0 } := by
      simp [FusionEngine.push_pos, FusionEngine.setStation, FusionEngine.station,
        lookupSt_setSt_self, truthyStr, hsku, hk, htab]
    rw [hpush]
    exact list_getLast?_ringPush 10 _ _ (by norm_num)
  rw [hlast]
  unfold weightRule expectedWeight
  simp [hobs, hsku, htab]
  exact mul_nonneg htol hnn

/-- C10 counterexample: with table entry `PRD_Z` at 0 g and a pushed
`PRD_Z` record with observed weight -1, the delta is zero but the
tolerance is negative, so the rule fires: `compute` returns score 0.25
with a weight-delta reason. -/
theorem push_pos_zero_weight_entry_cex :
    (exZeroSkuEngine.compute "SCC1").1 = (0.25, [Reason.weightDelta (-1) (-1)]) ∧
    ((0.25 : ℚ) ≠ 0 ∧ [Reason.weightDelta (-1) (-1)] ≠ []) := by
  refine ⟨?_, by norm_num⟩
  simp [FusionEngine.compute, exZeroSkuEngine, exZeroTable, FusionEngine.push_pos,
    FusionEngine.setStation, FusionEngine.station, lookupSt, setSt, emptyStation,
    truthyStr, ringPush, scanAvoidRule, barcodeRule, weightRule, queueRule, expectedWeight]
  norm_num

/-- C10 witness: with table entry `PRD_Z` at 0 g and a pushed `PRD_Z`
record with observed weight 500, the rule contributes nothing. -/
theorem push_pos_zero_weight_entry_witness :
    weightRule ({ weights := exZeroTable } : FusionEngine).weights
      ({ weights := exZeroTable } : FusionEngine).weight_tol_pct
      (((FusionEngine.push_pos { weights := exZeroTable } "SCC1"
          { sku := some "PRD_Z", weight_g := some 500 }).station "SCC1").pos.getLast?) =
      (0, []) :=
  push_pos_zero_weight_entry { weights := exZeroTable } "SCC1"
    { sku := some "PRD_Z", weight_g := some 500 } "PRD_Z" 500
    rfl (by simp) (by simp [exZeroTable]) rfl (by norm_num) (by norm_num)

/-- C5 (amended): a snapshot with customer count at least 6 and dwell
under 120 emits exactly the ordered triple Long Queue Length, Staffing
Needs (Cashier), Checkout Station Action (Open); a dwell of at least 120
emits Long Wait Time as the final event independently of the count check;
both firing together yields exactly 4 events (the triple followed by Long
Wait Time). -/
theorem from_queue_events (st : String) (q : QueueSnapshot) :
    (6 ≤ q.customer_count.getD 0 → q.average_dwell_time.getD 0 < 120 →
      from_queue st q =
        [.longQueueLength st (q.customer_count.getD 0),
         .staffingNeeds st "Cashier", .checkoutStationAction st "Open"]) ∧
    (120 ≤ q.average_dwell_time.getD 0 →
      (from_queue st q).getLast? =
        some (.longWaitTime st (q.average_dwell_time.getD 0)) ∧
      (q.customer_count.getD 0 < 6 →
        from_queue st q = [.longWaitTime st (q.average_dwell_time.getD 0)])) ∧
    (6 ≤ q.customer_count.getD 0 → 120 ≤ q.average_dwell_time.getD 0 →
      from_queue st q =
        [.longQueueLength st (q.customer_count.getD 0),
         .staffingNeeds st "Cashier", .checkoutStationAction st "Open",
         .longWaitTime st (q.average_dwell_time.getD 0)] ∧
      (from_queue st q).length = 4) := by
  have hccF : 6 ≤ q.customer_count.getD 0 → q.isEmptyDict = false := by
    intro h
    cases hq : q.customer_count with
    | none => rw [hq] at h; norm_num at h
    | some c => simp [QueueSnapshot.isEmptyDict, hq]
  have hdtF : 120 ≤ q.average_dwell_time.getD 0 → q.isEmptyDict = false := by
    intro h
    cases hq : q.average_dwell_time with
    | none => rw [hq] at h; norm_num at h
    | some c => simp [QueueSnapshot.isEmptyDict, hq]
  refine ⟨fun h6 hdt => ?_, fun hdt => ⟨?_, fun hcc => ?_⟩, fun h6 hdt => ⟨?_, ?_⟩⟩
  · simp [from_queue, hccF h6, h6, not_le.mpr hdt]
  · simp [from_queue, hdtF hdt, hdt, List.getLast?_concat]
  · simp [from_queue, hdtF hdt, hdt, not_le.mpr hcc]
  · simp [from_queue, hccF h6, h6, hdt]
  · simp [from_queue, hccF h6, h6, hdt]

/-- C5 counterexample: when both checks fire on one snapshot (count 6,
dwell 120) the mapper emits exactly 4 events, so the maximum per
snapshot is 4 and an output of 5 events is unattainable. -/
theorem from_queue_events_cex :
    (from_queue "SCC1" exQueueBoth).length = 4 ∧
    ¬ (from_queue "SCC1" exQueueBoth).length = 5 := by
  constructor <;>
    norm_num [from_queue, exQueueBoth, QueueSnapshot.isEmptyDict]

/-- C5 witness: the three scenarios at concrete snapshots: count-only
emits the ordered triple, dwell-only emits only Long Wait Time, and both
emit the triple followed by Long Wait Time. -/
theorem from_queue_events_witness :
    from_queue "SCC1" exQueueCount =
      [.longQueueLength "SCC1" 6, .staffingNeeds "SCC1" "Cashier",
       .checkoutStationAction "SCC1" "Open"] ∧
    from_queue "SCC1" exQueueDwell = [.longWaitTime "SCC1" 150] ∧
    from_queue "SCC1" exQueueBoth =
      [.longQueueLength "SCC1" 6, .staffingNeeds "SCC1" "Cashier",
       .checkoutStationAction "SCC1" "Open", .longWaitTime "SCC1" 120] :=
  ⟨(from_queue_events "SCC1" exQueueCount).1 (by norm_num [exQueueCount])
      (by norm_num [exQueueCount]),
   ((from_queue_events "SCC1" exQueueDwell).2.1 (by norm_num [exQueueDwell])).2
      (by norm_num [exQueueDwell]),
   ((from_queue_events "SCC1" exQueueBoth).2.2 (by norm_num [exQueueBoth])
      (by norm_num [exQueueBoth])).1⟩

theorem emitCycle_map_sequence (span : Int) (k : Nat) (l : List TaggedEvent) :
    ∀ seq, (emitCycle span k seq l).map (fun f => f.sequence) =
      List.range' seq l.length := by
  induction l with
  | nil => intro seq; simp [emitCycle]
  | cons e rest ih =>
    intro seq
    simp [emitCycle, List.range'_succ, ih (seq + 1)]

theorem runCycles_map_sequence (events : List TaggedEvent) (span : Int) :
    ∀ (c k seq : Nat), (runCycles events span k seq c).map (fun f => f.sequence) =
      List.range' seq (c * events.length) := by
  intro c
  induction c with
  | zero => intro k seq; simp [runCycles]
  | succ n ih =>
    intro k seq
    have happ := List.range'_append_1 seq events.length (n * events.length)
    simp only [runCycles, List.map_append, emitCycle_map_sequence, ih (k + 1)]
    rw [happ]
    congr 1
    ring

/-- C3: over any number of replay cycles, the adjusted timestamps emitted
in cycle k+1 are exactly those of cycle k shifted forward by the cycle
span, and the sequence numbers of all frames of all cycles of one
connection are 1, 2, 3, ... — starting at 1 and strictly increasing with
no reset at cycle boundaries. -/
theorem replay_shift_and_sequences (events : List TaggedEvent) (span : Int)
    (c k seq seq2 : Nat) :
    ((emitCycle span (k + 1) seq events).map (fun f => f.timestamp) =
      (emitCycle span k seq2 events).map (fun f => f.timestamp + span)) ∧
    ((handleFrames events span c).map (fun f => f.sequence) =
      List.range' 1 (c * events.length)) ∧
    ((handleFrames events span c).map (fun f => f.sequence)).Pairwise (· < ·) := by
  refine ⟨?_, ?_, ?_⟩
  · induction events generalizing seq seq2 with
    | nil => simp [emitCycle]
    | cons e rest ih =>
      simp only [emitCycle, List.map_cons, ih (seq + 1) (seq2 + 1), List.cons.injEq]
      refine ⟨?_, trivial⟩
      push_cast
      ring
  · exact runCycles_map_sequence events span c 0 1
  · rw [handleFrames, runCycles_map_sequence events span c 0 1]
    exact List.pairwise_lt_range' 1 (c * events.length)

theorem minPosGap_pos : ∀ (l : List Int) (m : Int), minPosGap l = some m → 0 < m := by
  intro l
  induction l with
  | nil => intro m h; simp [minPosGap] at h
  | cons g rest ih =>
    intro m h
    simp only [minPosGap] at h
    by_cases hg : 0 < g
    · rw [if_pos hg] at h
      cases hr : minPosGap rest with
      | some x =>
        rw [hr] at h
        have hx := ih x hr
        have hm : m = min g x := by injection h with h; omega
        omega
      | none =>
        rw [hr] at h
        have hm : m = g := by injection h with h; omega
        omega
    · rw [if_neg hg] at h
      exact ih m h

theorem minPosGap_none (l : List Int) (h : ∀ x ∈ l, ¬ 0 < x) : minPosGap l = none := by
  induction l with
  | nil => simp [minPosGap]
  | cons g rest ih =>
    simp only [minPosGap]
    rw [if_neg (h g (by simp))]
    exact ih fun x hx => h x (by simp [hx])

theorem minPosGap_mem : ∀ (l : List Int) (m : Int), minPosGap l = some m → m ∈ l := by
  intro l
  induction l with
  | nil => intro m h; simp [minPosGap] at h
  | cons g rest ih =>
    intro m h
    simp only [minPosGap] at h
    by_cases hg : 0 < g
    · rw [if_pos hg] at h
      cases hr : minPosGap rest with
      | some x =>
        rw [hr] at h
        have hm : m = min g x := by injection h with h; omega
        rcases le_total g x with hgx | hgx
        · simp [hm, min_eq_left hgx]
        · have : m = x := by omega
          simp [this, ih x hr]
      | none =>
        rw [hr] at h
        have : m = g := by injection h with h; omega
        simp [this]
    · rw [if_neg hg] at h
      simp [ih m h]

theorem minPosGap_none_forall : ∀ (l : List Int), minPosGap l = none →
    ∀ x ∈ l, ¬ 0 < x := by
  intro l
  induction l with
  | nil => intro _ x hx; simp at hx
  | cons g rest ih =>
    intro h x hx
    simp only [minPosGap] at h
    by_cases hg : 0 < g
    · rw [if_pos hg] at h
      cases hr : minPosGap rest with
      | some y => rw [hr] at h; simp at h
      | none => rw [hr] at h; simp at h
    · rw [if_neg hg] at h
      rcases List.mem_cons.mp hx with rfl | hxr
      · exact hg
      · exact ih h x hxr

theorem minPosGap_le : ∀ (l : List Int) (m : Int), minPosGap l = some m →
    ∀ x ∈ l, 0 < x → m ≤ x := by
  intro l
  induction l with
  | nil => intro m h; simp [minPosGap] at h
  | cons g rest ih =>
    intro m h x hx hxpos
    simp only [minPosGap] at h
    by_cases hg : 0 < g
    · rw [if_pos hg] at h
      cases hr : minPosGap rest with
      | some y =>
        rw [hr] at h
        have hm : m = min g y := by injection h with h; omega
        rcases List.mem_cons.mp hx with hxg | hxr
        · omega
        · have := ih y hr x hxr hxpos
          omega
      | none =>
        rw [hr] at h
        have hm : m = g := by injection h with h; omega
        rcases List.mem_cons.mp hx with hxg | hxr
        · omega
        · exact absurd hxpos (minPosGap_none_forall rest hr x hxr)
    · rw [if_neg hg] at h
      rcases List.mem_cons.mp hx with hxg | hxr
      · omega
      · exact ih m h x hxr hxpos

theorem tsGaps_mem_diff : ∀ (l : List Int), ∀ x ∈ tsGaps l,
    ∃ a ∈ l, ∃ b ∈ l, x = b - a := by
  intro l
  induction l with
  | nil => intro x hx; simp [tsGaps] at hx
  | cons a tail ih =>
    intro x hx
    cases tail with
    | nil => simp [tsGaps] at hx
    | cons b rest =>
      simp only [tsGaps, List.mem_cons] at hx
      rcases hx with rfl | hx
      · exact ⟨a, by simp, b, by simp, rfl⟩
      · obtain ⟨p, hp, q, hq, hpq⟩ := ih x (by simpa [tsGaps] using hx)
        exact ⟨p, List.mem_cons_of_mem a hp, q, List.mem_cons_of_mem a hq, hpq⟩

theorem sorted_head_le_getLast (t : Int) (rest : List Int)
    (h : (t :: rest).Pairwise (· ≤ ·)) :
    t ≤ ((t :: rest).getLast?.getD 0) := by
  cases hl : (t :: rest).getLast? with
  | none => simp [List.getLast?_eq_none_iff] at hl
  | some a =>
    have ha : a ∈ t :: rest := List.mem_of_mem_getLast? hl
    rcases List.mem_cons.mp ha with rfl | har
    · simp
    · simpa using (List.pairwise_cons.mp h).1 a har

/-- C7: for a non-empty sorted merged sequence, the cycle span equals
(last timestamp − first timestamp) plus the minimum strictly positive
consecutive gap (defaulting to 1 second); the span is strictly positive;
when all records share one timestamp the span is exactly 1 second; and
the gap used really is the minimum over the strictly positive
consecutive gaps. -/
theorem cycleSpan_spec (events : List TaggedEvent)
    (hne : events ≠ [])
    (hsorted : (events.map (fun e => e.timestamp)).Pairwise (· ≤ ·)) :
    (cycleSpan events =
      ((events.map (fun e => e.timestamp)).getLast?.getD 0 -
        (events.map (fun e => e.timestamp)).head?.getD 0) +
      (minPosGap (tsGaps (events.map (fun e => e.timestamp)))).getD 1) ∧
    0 < cycleSpan events ∧
    ((∀ a ∈ events, ∀ b ∈ events, a.timestamp = b.timestamp) →
      cycleSpan events = 1) ∧
    (∀ m, minPosGap (tsGaps (events.map (fun e => e.timestamp))) = some m →
      0 < m ∧ m ∈ tsGaps (events.map (fun e => e.timestamp)) ∧
      ∀ x ∈ tsGaps (events.map (fun e => e.timestamp)), 0 < x → m ≤ x) := by
  obtain ⟨e0, es, rfl⟩ := List.exists_cons_of_ne_nil hne
  have hhead : ((e0 :: es).map (fun e => e.timestamp)).head?.getD 0 = e0.timestamp := by
    simp
  have hfl : ((e0 :: es).map (fun e => e.timestamp)).head?.getD 0 ≤
      ((e0 :: es).map (fun e => e.timestamp)).getLast?.getD 0 := by
    rw [hhead]
    have hmap : (e0 :: es).map (fun e => e.timestamp) =
        e0.timestamp :: es.map (fun e => e.timestamp) := by simp
    rw [hmap]
    exact sorted_head_le_getLast _ _ (by rw [← hmap]; exact hsorted)
  have hgap : 0 < (minPosGap (tsGaps ((e0 :: es).map (fun e => e.timestamp)))).getD 1 := by
    cases hm : minPosGap (tsGaps ((e0 :: es).map (fun e => e.timestamp))) with
    | none => simp
    | some m => simpa using minPosGap_pos _ m hm
  have hformula : cycleSpan (e0 :: es) =
      (((e0 :: es).map (fun e => e.timestamp)).getLast?.getD 0 -
        ((e0 :: es).map (fun e => e.timestamp)).head?.getD 0) +
      (minPosGap (tsGaps ((e0 :: es).map (fun e => e.timestamp)))).getD 1 := by
    simp only [cycleSpan]
    rw [if_neg (by omega)]
  refine ⟨hformula, by rw [hformula]; omega, ?_, fun m hm =>
    ⟨minPosGap_pos _ m hm, minPosGap_mem _ m hm, minPosGap_le _ m hm⟩⟩
  intro hall
  have hgapsnone : minPosGap (tsGaps ((e0 :: es).map (fun e => e.timestamp))) = none := by
    apply minPosGap_none
    intro x hx
    obtain ⟨a, ha, b, hb, rfl⟩ := tsGaps_mem_diff _ x hx
    obtain ⟨ea, hea, rfl⟩ := List.mem_map.mp ha
    obtain ⟨eb, heb, rfl⟩ := List.mem_map.mp hb
    have heq := hall ea hea eb heb
    omega
  have hlast : ((e0 :: es).map (fun e => e.timestamp)).getLast?.getD 0 = e0.timestamp := by
    cases hl : ((e0 :: es).map (fun e => e.timestamp)).getLast? with
    | none => simp [List.getLast?_eq_none_iff] at hl
    | some a =>
      obtain ⟨ea, hea, rfl⟩ := List.mem_map.mp (List.mem_of_mem_getLast? hl)
      simpa using hall ea hea e0 (by simp)
  rw [hformula, hlast, hhead, hgapsnone]
  simp

/-- C7 witness: on a concrete sorted sequence with a duplicate timestamp
the span formula and positivity hold, and on a sequence whose records all
share one timestamp the span is exactly 1 second. -/
theorem cycleSpan_spec_witness :
    (cycleSpan exSortedEvents =
      ((exSortedEvents.map (fun e => e.timestamp)).getLast?.getD 0 -
        (exSortedEvents.map (fun e => e.timestamp)).head?.getD 0) +
      (minPosGap (tsGaps (exSortedEvents.map (fun e => e.timestamp)))).getD 1) ∧
    0 < cycleSpan exSortedEvents ∧
    cycleSpan exFlatEvents = 1 :=
  ⟨(cycleSpan_spec exSortedEvents (by simp [exSortedEvents]) (by decide)).1,
   (cycleSpan_spec exSortedEvents (by simp [exSortedEvents]) (by decide)).2.1,
   (cycleSpan_spec exFlatEvents (by simp [exFlatEvents]) (by decide)).2.2.1 (by decide)⟩

theorem except_ok_bind {α β : Type} (a : α) (f : α → Except MergeError β) :
    (Except.ok a >>= f) = f a := rfl

theorem except_error_bind {α β : Type} (e : MergeError) (f : α → Except MergeError β) :
    ((Except.error e : Except MergeError α) >>= f) = Except.error e := rfl

theorem except_map_ok {α β : Type} (a : α) (f : α → β) :
    (f <$> (Except.ok a : Except MergeError α)) = Except.ok (f a) := rfl

theorem except_map_error {α β : Type} (e : MergeError) (f : α → β) :
    (f <$> (Except.error e : Except MergeError α)) = Except.error e := rfl

theorem except_pure {α : Type} (a : α) :
    (pure a : Except MergeError α) = Except.ok a := rfl

theorem tsLE_trans : ∀ (a b c : TaggedEvent), tsLE a b → tsLE b c → tsLE a c := by
  intro a b c hab hbc
  simp only [tsLE, decide_eq_true_eq] at hab hbc ⊢
  omega

theorem tsLE_total : ∀ (a b : TaggedEvent), tsLE a b || tsLE b a := by
  intro a b
  simp only [tsLE, Bool.or_eq_true, decide_eq_true_eq]
  omega

/-- C2: when every timestamp parses (so `collectAll` succeeds on the
concatenation of the tagged per-source sequences) and the result is
non-empty, `collect_events` returns the stable sort of that
concatenation: its timestamps are non-decreasing, and for every
timestamp value the records carrying it appear exactly in their
concatenation order. -/
theorem collect_events_sorted_stable (ds : List (String × List RawEvent))
    (flat : List TaggedEvent)
    (hflat : collectAll ds = .ok flat) (hne : flat ≠ []) :
    collect_events ds = .ok (sortByTs flat) ∧
    (sortByTs flat).Pairwise (fun a b => a.timestamp ≤ b.timestamp) ∧
    ∀ t : Int, (sortByTs flat).filter (fun e => e.timestamp == t) =
      flat.filter (fun e => e.timestamp == t) := by
  refine ⟨?_, ?_, ?_⟩
  · simp [collect_events, hflat, hne, except_ok_bind, except_pure]
  · have h := List.sorted_mergeSort tsLE_trans tsLE_total flat
    exact h.imp fun hab => by simpa [tsLE, decide_eq_true_eq] using hab
  · intro t
    have hpair : (flat.filter (fun e => e.timestamp == t)).Pairwise
        (fun a b => tsLE a b) := by
      apply List.pairwise_of_forall_mem_list
      intro a ha b hb
      have ha2 := (List.mem_filter.mp ha).2
      have hb2 := (List.mem_filter.mp hb).2
      simp only [beq_iff_eq] at ha2 hb2
      simp [tsLE, ha2, hb2]
    have hsub : List.Sublist (flat.filter (fun e => e.timestamp == t)) (sortByTs flat) :=
      List.sublist_mergeSort tsLE_trans tsLE_total hpair (List.filter_sublist flat)
    have hidem : (flat.filter (fun e => e.timestamp == t)).filter
        (fun e => e.timestamp == t) = flat.filter (fun e => e.timestamp == t) :=
      List.filter_eq_self.mpr fun a ha => (List.mem_filter.mp ha).2
    have hsub2 : List.Sublist (flat.filter (fun e => e.timestamp == t))
        ((sortByTs flat).filter (fun e => e.timestamp == t)) := by
      have hfs := hsub.filter (fun e => e.timestamp == t)
      rwa [hidem] at hfs
    have hlen : ((sortByTs flat).filter (fun e => e.timestamp == t)).length =
        (flat.filter (fun e => e.timestamp == t)).length :=
      ((List.mergeSort_perm flat tsLE).filter _).length_eq
    exact (hsub2.eq_of_length hlen.symm).symm

/-- C2 witness: on two concrete datasets with a cross-source timestamp
tie, the merger returns the stable sort and the tied records keep their
concatenation order. -/
theorem collect_events_sorted_stable_witness :
    collect_events exDatasets = .ok (sortByTs exFlat) ∧
    (sortByTs exFlat).filter (fun e => e.timestamp == 3) =
      exFlat.filter (fun e => e.timestamp == 3) :=
  ⟨(collect_events_sorted_stable exDatasets exFlat rfl (by simp [exFlat])).1,
   (collect_events_sorted_stable exDatasets exFlat rfl (by simp [exFlat])).2.2 3⟩

theorem parse_timestamp_bad (value : TsField) (dataset : String) (h : badTs value) :
    parse_timestamp value dataset = .error (.malformedTimestamp dataset value) := by
  cases value with
  | absent => rfl
  | nonString => rfl
  | str raw parsed =>
    cases parsed with
    | none => rfl
    | some t => simp [badTs] at h

theorem parse_timestamp_ok (value : TsField) (dataset : String) (h : ¬ badTs value) :
    ∃ t, parse_timestamp value dataset = .ok t := by
  cases value with
  | absent => simp [badTs] at h
  | nonString => simp [badTs] at h
  | str raw parsed =>
    cases parsed with
    | none => simp [badTs] at h
    | some t => exact ⟨t, rfl⟩

theorem tagEvents_ok (dataset : String) : ∀ (evs : List RawEvent),
    (∀ e ∈ evs, ¬ badTs e.timestamp) → ∃ l, tagEvents dataset evs = .ok l := by
  intro evs
  induction evs with
  | nil => intro _; exact ⟨[], rfl⟩
  | cons e rest ih =>
    intro h
    obtain ⟨t, ht⟩ := parse_timestamp_ok e.timestamp dataset (h e (by simp))
    obtain ⟨l, hl⟩ := ih fun g hg => h g (List.mem_cons_of_mem e hg)
    exact ⟨⟨dataset, t, e⟩ :: l, by simp [tagEvents, ht, hl, except_ok_bind, except_pure]⟩

theorem tagEvents_error (dataset : String) : ∀ (evs : List RawEvent),
    (∃ e ∈ evs, badTs e.timestamp) →
    ∃ raw, tagEvents dataset evs = .error (.malformedTimestamp dataset raw) ∧
      badTs raw ∧ ∃ e ∈ evs, e.timestamp = raw := by
  intro evs
  induction evs with
  | nil => rintro ⟨e, he, _⟩; simp at he
  | cons e rest ih =>
    rintro ⟨f, hf, hbad⟩
    by_cases hbe : badTs e.timestamp
    · refine ⟨e.timestamp, ?_, hbe, e, by simp, rfl⟩
      simp [tagEvents, parse_timestamp_bad _ _ hbe, except_error_bind]
    · have hfrest : ∃ g ∈ rest, badTs g.timestamp := by
        rcases List.mem_cons.mp hf with rfl | hfr
        · exact absurd hbad hbe
        · exact ⟨f, hfr, hbad⟩
      obtain ⟨raw, hraw, hbraw, g, hg, hgr⟩ := ih hfrest
      obtain ⟨t, ht⟩ := parse_timestamp_ok e.timestamp dataset hbe
      exact ⟨raw, by simp [tagEvents, ht, hraw, except_ok_bind, except_error_bind], hbraw, g,
        List.mem_cons_of_mem e hg, hgr⟩

theorem collectAll_error : ∀ (ds : List (String × List RawEvent)),
    (∃ p ∈ ds, ∃ e ∈ p.2, badTs e.timestamp) →
    ∃ d raw, collectAll ds = .error (.malformedTimestamp d raw) ∧ badTs raw ∧
      ∃ evs, (d, evs) ∈ ds ∧ ∃ e ∈ evs, e.timestamp = raw := by
  intro ds
  induction ds with
  | nil => rintro ⟨p, hp, _⟩; simp at hp
  | cons p rest ih =>
    intro hbad
    obtain ⟨n, evs⟩ := p
    by_cases hhead : ∃ e ∈ evs, badTs e.timestamp
    · obtain ⟨raw, hraw, hbraw, e, he, her⟩ := tagEvents_error n evs hhead
      exact ⟨n, raw, by simp [collectAll, hraw, except_error_bind], hbraw, evs, by simp, e, he, her⟩
    · have hrest : ∃ q ∈ rest, ∃ e ∈ q.2, badTs e.timestamp := by
        obtain ⟨q, hq, e, he, hbe⟩ := hbad
        rcases List.mem_cons.mp hq with rfl | hqr
        · exact absurd ⟨e, he, hbe⟩ hhead
        · exact ⟨q, hqr, e, he, hbe⟩
      obtain ⟨d, raw, hcoll, hbraw, evs2, hevs2, hex⟩ := ih hrest
      obtain ⟨l, hl⟩ := tagEvents_ok n evs (by push_neg at hhead; exact hhead)
      exact ⟨d, raw, by simp [collectAll, hl, hcoll, except_ok_bind, except_error_bind], hbraw, evs2,
        List.mem_cons_of_mem _ hevs2, hex⟩

/-- C8: if any record of any dataset has a missing or unparsable
timestamp, the whole merge fails with a malformed-timestamp error naming
an offending dataset and its raw timestamp value, and no merged sequence
is produced. -/
theorem collect_events_malformed (ds : List (String × List RawEvent))
    (hbad : ∃ p ∈ ds, ∃ e ∈ p.2, badTs e.timestamp) :
    (∃ d raw, collect_events ds = .error (.malformedTimestamp d raw) ∧ badTs raw ∧
      ∃ evs, (d, evs) ∈ ds ∧ ∃ e ∈ evs, e.timestamp = raw) ∧
    ∀ out, collect_events ds ≠ .ok out := by
  obtain ⟨d, raw, hcoll, hbraw, hwit⟩ := collectAll_error ds hbad
  have hce : collect_events ds = .error (.malformedTimestamp d raw) := by
    simp [collect_events, hcoll, except_error_bind]
  refine ⟨⟨d, raw, hce, hbraw, hwit⟩, fun out h => ?_⟩
  rw [hce] at h
  cases h

/-- C8 witness: a dataset collection with one unparsable timestamp fails
with the matching malformed-timestamp error and yields no merged
sequence. -/
theorem collect_events_malformed_witness :
    collect_events exBadDatasets =
      .error (.malformedTimestamp "POS_Transactions" (.str "garbage" none)) ∧
    collect_events exBadDatasets ≠ .ok [] := by
  have h := collect_events_malformed exBadDatasets (by decide)
  exact ⟨rfl, h.2 []⟩

end RunDemo
